import Mathlib

/-!
Verification of the tracecat workflow-sync subsystem.

This file shallowly embeds the code of:
  - tracecat/git/types.py        (GitUrl, GitUrl.to_url)
  - tracecat/git/constants.py    (GIT_SSH_URL_REGEX, GIT_HTTPS_URL_REGEX)
  - tracecat/workflow/store/sync.py
      (WorkflowSyncService: _detect_provider, pull, _parse_workflow_definitions,
       push, _push_github, _push_gitlab, _list_commits_github, _list_commits_gitlab)
  - tracecat/vcs/gitlab/service.py
      (GitLabService.get_gitlab_credentials, get_gitlab_credentials_status)

External collaborators (provider SDK clients, yaml, pydantic, the secrets vault and
the atomic import service) are modelled as oracle parameters: each call site's
outcome is a parameter of the embedded function, so theorems quantify over every
behaviour of the collaborator.  Python exceptions are modelled with Except; the
dynamic class of an exception is modelled by a constructor tag so that the
except-clause dispatch of the source can be translated faithfully.
-/

set_option maxRecDepth 4096

/-! ## Generic list helpers used by the embeddings -/

/-- Drops `pfx` from the front of `l`; none if `l` does not start with `pfx`. -/
def stripPfx : List Char → List Char → Option (List Char)
  | [], l => some l
  | _ :: _, [] => none
  | a :: as, b :: bs => if a = b then stripPfx as bs else none

theorem stripPfx_append (xs ys : List Char) : stripPfx xs (xs ++ ys) = some ys := by
  induction xs with
  | nil => rfl
  | cons a as ih => simp [stripPfx, ih]

theorem takeWhile_append_of_all {α : Type} (p : α → Bool) (y : α) (ys : List α)
    (hy : p y = false) :
    ∀ xs : List α, (∀ c ∈ xs, p c = true) →
      (xs ++ y :: ys).takeWhile p = xs
  | [], _ => by simp [List.takeWhile, hy]
  | a :: as, h => by
    have ha : p a = true := h a (by simp)
    have ih := takeWhile_append_of_all p y ys hy as (fun c hc => h c (by simp [hc]))
    simp [List.takeWhile, ha, ih]

theorem dropWhile_append_of_all {α : Type} (p : α → Bool) (y : α) (ys : List α)
    (hy : p y = false) :
    ∀ xs : List α, (∀ c ∈ xs, p c = true) →
      (xs ++ y :: ys).dropWhile p = y :: ys
  | [], _ => by simp [List.dropWhile, hy]
  | a :: as, h => by
    have ha : p a = true := h a (by simp)
    have ih := dropWhile_append_of_all p y ys hy as (fun c hc => h c (by simp [hc]))
    simp [List.dropWhile, ha, ih]

theorem takeWhile_of_all {α : Type} (p : α → Bool) :
    ∀ xs : List α, (∀ c ∈ xs, p c = true) → xs.takeWhile p = xs
  | [], _ => rfl
  | a :: as, h => by
    have ha : p a = true := h a (by simp)
    have ih := takeWhile_of_all p as (fun c hc => h c (by simp [hc]))
    simp [List.takeWhile, ha, ih]

theorem dropWhile_of_all {α : Type} (p : α → Bool) :
    ∀ xs : List α, (∀ c ∈ xs, p c = true) → xs.dropWhile p = []
  | [], _ => rfl
  | a :: as, h => by
    have ha : p a = true := h a (by simp)
    have ih := dropWhile_of_all p as (fun c hc => h c (by simp [hc]))
    simp [List.dropWhile, ha, ih]

/-! ## Git URL model — tracecat/git/types.py -/

/-- GitScheme from tracecat/git/types.py (StrEnum with values ssh, https). -/
inductive GitScheme
  | ssh
  | https
  deriving DecidableEq, Repr

/-- GitUrl from tracecat/git/types.py: immutable Git URL representation. -/
structure GitUrl where
  host : String
  org : String
  repo : String
  ref : Option String := none
  scheme : GitScheme := .ssh
  deriving DecidableEq, Repr

/-- GitUrl.to_url from tracecat/git/types.py.  Python's truthiness test
`if self.ref` is false for both None and the empty string. -/
def GitUrl.toUrl (u : GitUrl) : String :=
  let base :=
    if u.scheme = GitScheme.https then
      "https://" ++ u.host ++ "/" ++ u.org ++ "/" ++ u.repo ++ ".git"
    else
      "git+ssh://git@" ++ u.host ++ "/" ++ u.org ++ "/" ++ u.repo ++ ".git"
  match u.ref with
  | some r => if r = "" then base else base ++ "@" ++ r
  | none => base

/-! ## Git URL parsing — tracecat/git/constants.py

The two regexes (tracecat/git/constants.py) are, for SSH and HTTPS respectively:

  git\+ssh://git@(?P<host>[^/:]+)(?::(?P<port>\d+))?/(?P<path>[^/@]+?(?:/[^/@]+?)+?)(?:\.git)?(?:@(?P<ref>[^/@]+))?$
  https://(?P<host>[^/:]+)(?::(?P<port>\d+))?/(?P<path>[^/@]+?(?:/[^/@]+?)+?)(?:\.git)?(?:@(?P<ref>[^/@]+))?$

We translate the backtracking semantics into a deterministic functional parser:

  * the host group is greedy over a class that excludes the characters that can
    follow it, so it is the maximal run of non-slash non-colon characters;
  * the port group, if a colon follows the host, must be a nonempty maximal
    digit run followed by a slash, otherwise the whole match fails;
  * the path group excludes the at-sign, and the ref group excludes at-sign and
    slash, so the matched string contains at most one at-sign and everything
    after it is the ref (which must be nonempty and slash-free);
  * before the (optional) at-sign, the lazy path followed by the optional
    literal .git and the end anchor leaves exactly two candidate decompositions:
    either the whole segment A is the path, or A minus a trailing .git is.
    Laziness prefers the shorter one, so the parser first tries A without the
    .git suffix and falls back to A itself, each time checking that the
    candidate is a well-formed path of at least two nonempty segments over the
    class excluding slash-in-segment and at-sign.

  The Python end anchor also matches just before a trailing newline; on any
  string in the image of to_url the greedy ref/.git groups consume through the
  final newline first, so this translation agrees with the regex on all strings
  considered by the theorems below.
-/

/-- Character class of the host capture group: any character except slash and colon. -/
def hostChar (c : Char) : Bool := c != '/' && c != ':'

/-- segsValid seen l: l continues a slash-separated segment list whose segments
are nonempty and free of slash and at-sign; seen records whether the current
segment already has at least one character. -/
def segsValid : Bool → List Char → Bool
  | seen, [] => seen
  | seen, c :: r =>
    if c = '/' then seen && segsValid false r
    else if c = '@' then false
    else segsValid true r

/-- The path capture group of the regexes: at least two nonempty segments. -/
def validPath (p : List Char) : Bool :=
  segsValid false p && p.any (fun c => c = '/')

/-- Strips a trailing literal .git, if present. -/
def dropGitSuffix (a : List Char) : Option (List Char) :=
  match a.reverse with
  | c1 :: c2 :: c3 :: c4 :: r =>
    if c1 = 't' ∧ c2 = 'i' ∧ c3 = 'g' ∧ c4 = '.' then some r.reverse else none
  | _ => none

/-- Given the characters A before the (optional) at-sign, returns the path the
regex captures: laziness prefers A minus a trailing .git when that is a valid
path, then A itself. -/
def pathFromA (a : List Char) : Option (List Char) :=
  match dropGitSuffix a with
  | some p => if validPath p then some p else if validPath a then some a else none
  | none => if validPath a then some a else none

/-- Matches the part of the URL after host[:port]/ against
path (.git)? (@ref)? and the end anchor; returns (path, ref). -/
def parseTail (t : List Char) : Option (List Char × Option (List Char)) :=
  match t.dropWhile (fun c => c != '@') with
  | [] => (pathFromA (t.takeWhile (fun c => c != '@'))).map (fun p => (p, none))
  | _ :: r =>
    if r = [] then none
    else if r.any (fun c => c = '@' || c = '/') then none
    else (pathFromA (t.takeWhile (fun c => c != '@'))).map (fun p => (p, some r))

/-- Splits a valid path at its last slash: everything before is the org,
the last segment is the repo (spec section 4.1). -/
def splitLastSlash (p : List Char) : List Char × List Char :=
  (((p.reverse.dropWhile (fun c => c != '/')).drop 1).reverse,
   (p.reverse.takeWhile (fun c => c != '/')).reverse)

/-- Combines a matched tail with the host: splits the captured path at its last
slash into org and repo and assembles the capture tuple. -/
def finishTail (host t : List Char) : Option (List Char × List Char × List Char × Option (List Char)) :=
  (parseTail t).map (fun pr => (host, (splitLastSlash pr.1).1, (splitLastSlash pr.1).2, pr.2))

/-- Matches host[:port]/path(.git)?(@ref)? and returns (host, org, repo, ref).
Modelled from the spec: tracecat/git/utils.py (the parse function applying these
regexes) is not under src/; per spec section 4.1 the captured path is split so
that only the last segment is the repo, and per the GitUrl data model the port
capture has no field, so a validated port is not represented. -/
def parseHostTail (l : List Char) : Option (List Char × List Char × List Char × Option (List Char)) :=
  if l.takeWhile hostChar = [] then none
  else
    match l.dropWhile hostChar with
    | [] => none
    | c :: rest =>
      if c = '/' then finishTail (l.takeWhile hostChar) rest
      else if c = ':' then
        if rest.takeWhile (fun d => d.isDigit) = [] then none
        else
          match rest.dropWhile (fun d => d.isDigit) with
          | [] => none
          | c2 :: t => if c2 = '/' then finishTail (l.takeWhile hostChar) t else none
      else none

/-- The SSH URL regex of tracecat/git/constants.py as a functional parser. -/
def parseSshL (l : List Char) : Option (List Char × List Char × List Char × Option (List Char)) :=
  match stripPfx "git+ssh://git@".data l with
  | some rest => parseHostTail rest
  | none => none

/-- The HTTPS URL regex of tracecat/git/constants.py as a functional parser. -/
def parseHttpsL (l : List Char) : Option (List Char × List Char × List Char × Option (List Char)) :=
  match stripPfx "https://".data l with
  | some rest => parseHostTail rest
  | none => none

/-- Modelled from the spec: tracecat/git/utils.py is not under src/; per spec
sections 3 and 4.1 a Git URL string is parsed by trying the two
regex-constrained forms (they are mutually exclusive by their literal prefixes)
and rebuilding a GitUrl whose scheme records which form matched; a string
matching neither form fails (ParseError, modelled as none). -/
def parseGitUrl (s : String) : Option GitUrl :=
  match parseSshL s.data with
  | some (h, o, r, rf) => some ⟨⟨h⟩, ⟨o⟩, ⟨r⟩, rf.map (⟨·⟩), .ssh⟩
  | none =>
    match parseHttpsL s.data with
    | some (h, o, r, rf) => some ⟨⟨h⟩, ⟨o⟩, ⟨r⟩, rf.map (⟨·⟩), .https⟩
    | none => none

/-! ## C1: round-trip of parse after to_url -/

/-- The characters a ref contributes to the matched tail. -/
def refTailL : Option (List Char) → List Char
  | none => []
  | some r => '@' :: r

theorem segsValid_append (ys : List Char) :
    ∀ (xs : List Char) (b : Bool),
      segsValid b (xs ++ '/' :: ys) = (segsValid b xs && segsValid false ys)
  | [], b => by simp [segsValid]
  | a :: as, b => by
    by_cases h1 : a = '/'
    · simp [segsValid, h1, segsValid_append ys as false, Bool.and_assoc]
    · by_cases h2 : a = '@'
      · simp [segsValid, h1, h2]
      · simp [segsValid, h1, h2, segsValid_append ys as true]

theorem segsValid_true_of_all :
    ∀ xs : List Char, (∀ c ∈ xs, c ≠ '/' ∧ c ≠ '@') → segsValid true xs = true
  | [], _ => rfl
  | a :: as, h => by
    have ha := h a (by simp)
    simp [segsValid, ha.1, ha.2,
      segsValid_true_of_all as (fun c hc => h c (by simp [hc]))]

theorem segsValid_start (xs : List Char) (hne : xs ≠ [])
    (h : ∀ c ∈ xs, c ≠ '/' ∧ c ≠ '@') : segsValid false xs = true := by
  match xs, hne with
  | a :: as, _ =>
    have ha := h a (by simp)
    simp [segsValid, ha.1, ha.2,
      segsValid_true_of_all as (fun c hc => h c (by simp [hc]))]

theorem segsValid_no_at (xs : List Char) :
    ∀ b : Bool, segsValid b xs = true → ∀ c ∈ xs, c ≠ '@' := by
  induction xs with
  | nil => intro b _ c hc; cases hc
  | cons a as ih =>
    intro b h c hc
    unfold segsValid at h
    by_cases h1 : a = '/'
    · rw [if_pos h1] at h
      rcases List.mem_cons.mp hc with rfl | hmem
      · rw [h1]; decide
      · have h2 : b = true ∧ segsValid false as = true := by simpa using h
        exact ih false h2.2 c hmem
    · rw [if_neg h1] at h
      by_cases h2 : a = '@'
      · rw [if_pos h2] at h; cases h
      · rw [if_neg h2] at h
        rcases List.mem_cons.mp hc with rfl | hmem
        · exact h2
        · exact ih true h c hmem

theorem validPath_append (org repo : List Char) (ho : segsValid false org = true)
    (hr : repo ≠ []) (hrc : ∀ c ∈ repo, c ≠ '/' ∧ c ≠ '@') :
    validPath (org ++ '/' :: repo) = true := by
  unfold validPath
  rw [segsValid_append]
  simp [ho, segsValid_start repo hr hrc, List.any_append]

theorem pathFromA_spec (org repo : List Char) (ho : segsValid false org = true)
    (hr : repo ≠ []) (hrc : ∀ c ∈ repo, c ≠ '/' ∧ c ≠ '@') :
    pathFromA ((org ++ '/' :: repo) ++ ['.', 'g', 'i', 't']) = some (org ++ '/' :: repo) := by
  have hrev : ((org ++ '/' :: repo) ++ ['.', 'g', 'i', 't']).reverse
      = 't' :: 'i' :: 'g' :: '.' :: (org ++ '/' :: repo).reverse := by simp
  unfold pathFromA dropGitSuffix
  rw [hrev]
  simp [validPath_append org repo ho hr hrc]

theorem parseTail_spec (org repo : List Char) (refT : Option (List Char))
    (ho : segsValid false org = true) (hr : repo ≠ [])
    (hrc : ∀ c ∈ repo, c ≠ '/' ∧ c ≠ '@')
    (hrf : ∀ r, refT = some r → r ≠ [] ∧ ∀ c ∈ r, c ≠ '/' ∧ c ≠ '@') :
    parseTail (org ++ '/' :: (repo ++ '.' :: 'g' :: 'i' :: 't' :: refTailL refT))
      = some (org ++ '/' :: repo, refT) := by
  have hAne : ∀ c ∈ (org ++ '/' :: repo) ++ ['.', 'g', 'i', 't'], (c != '@') = true := by
    intro c hc
    rcases List.mem_append.mp hc with hc | hc
    · rcases List.mem_append.mp hc with hc | hc
      · simpa [bne_iff_ne] using segsValid_no_at org false ho c hc
      · rcases List.mem_cons.mp hc with rfl | hc
        · decide
        · simpa [bne_iff_ne] using (hrc c hc).2
    · simp at hc
      rcases hc with rfl | rfl | rfl | rfl <;> decide
  cases refT with
  | none =>
    have hshape : org ++ '/' :: (repo ++ '.' :: 'g' :: 'i' :: 't' :: refTailL none)
        = (org ++ '/' :: repo) ++ ['.', 'g', 'i', 't'] := by simp [refTailL]
    unfold parseTail
    rw [hshape, dropWhile_of_all _ _ hAne, takeWhile_of_all _ _ hAne,
      pathFromA_spec org repo ho hr hrc]
    rfl
  | some r =>
    obtain ⟨hrne, hrc'⟩ := hrf r rfl
    have hshape : org ++ '/' :: (repo ++ '.' :: 'g' :: 'i' :: 't' :: refTailL (some r))
        = ((org ++ '/' :: repo) ++ ['.', 'g', 'i', 't']) ++ '@' :: r := by
      simp [refTailL]
    have hany : r.any (fun c => c = '@' || c = '/') = false := by
      simp only [List.any_eq_false]
      intro x hx
      simp [(hrc' x hx).1, (hrc' x hx).2]
    unfold parseTail
    rw [hshape, dropWhile_append_of_all _ '@' r (by decide) _ hAne,
      takeWhile_append_of_all _ '@' r (by decide) _ hAne]
    have hA2 : org ++ '/' :: (repo ++ ['.', 'g', 'i', 't'])
        = (org ++ '/' :: repo) ++ ['.', 'g', 'i', 't'] := by simp
    simp [hrne, hany]
    rw [hA2, pathFromA_spec org repo ho hr hrc]

theorem splitLastSlash_spec (org repo : List Char) (hrc : ∀ c ∈ repo, c ≠ '/') :
    splitLastSlash (org ++ '/' :: repo) = (org, repo) := by
  have hrev : (org ++ '/' :: repo).reverse = repo.reverse ++ '/' :: org.reverse := by simp
  have hall : ∀ c ∈ repo.reverse, (c != '/') = true := by
    intro c hc
    simpa [bne_iff_ne] using hrc c (List.mem_reverse.mp hc)
  unfold splitLastSlash
  rw [hrev, takeWhile_append_of_all _ '/' org.reverse (by decide) _ hall,
    dropWhile_append_of_all _ '/' org.reverse (by decide) _ hall]
  simp

theorem parseHostTail_spec (host org repo : List Char) (refT : Option (List Char))
    (hh : host ≠ []) (hhc : ∀ c ∈ host, c ≠ '/' ∧ c ≠ ':')
    (ho : segsValid false org = true) (hr : repo ≠ [])
    (hrc : ∀ c ∈ repo, c ≠ '/' ∧ c ≠ '@')
    (hrf : ∀ r, refT = some r → r ≠ [] ∧ ∀ c ∈ r, c ≠ '/' ∧ c ≠ '@') :
    parseHostTail (host ++ '/' :: (org ++ '/' :: (repo ++ '.' :: 'g' :: 'i' :: 't' :: refTailL refT)))
      = some (host, org, repo, refT) := by
  have hhost : ∀ c ∈ host, hostChar c = true := by
    intro c hc
    have hx := hhc c hc
    simp [hostChar, bne_iff_ne, hx.1, hx.2]
  unfold parseHostTail
  rw [takeWhile_append_of_all hostChar '/' _ (by decide) host hhost,
    dropWhile_append_of_all hostChar '/' _ (by decide) host hhost,
    if_neg hh]
  simp only [reduceIte]
  unfold finishTail
  rw [parseTail_spec org repo refT ho hr hrc hrf]
  simp [splitLastSlash_spec org repo (fun c hc => (hrc c hc).1)]

theorem stripPfx_cons_ne (a b : Char) (h : a ≠ b) (as bs : List Char) :
    stripPfx (a :: as) (b :: bs) = none := by
  simp [stripPfx, h]

theorem parseSshL_append (rest : List Char) :
    parseSshL ("git+ssh://git@".data ++ rest) = parseHostTail rest := by
  unfold parseSshL
  rw [stripPfx_append]

theorem parseHttpsL_append (rest : List Char) :
    parseHttpsL ("https://".data ++ rest) = parseHostTail rest := by
  unfold parseHttpsL
  rw [stripPfx_append]

theorem parseSshL_https_none (rest : List Char) :
    parseSshL ("https://".data ++ rest) = none := by
  unfold parseSshL
  rw [show "https://".data = 'h' :: "ttps://".data from rfl, List.cons_append,
    show "git+ssh://git@".data = 'g' :: "it+ssh://git@".data from rfl,
    stripPfx_cons_ne 'g' 'h' (by decide)]

theorem toUrl_data_ssh (host org repo : String) (ref : Option String)
    (hne : ∀ r, ref = some r → r ≠ "") :
    (GitUrl.toUrl ⟨host, org, repo, ref, .ssh⟩).data
      = "git+ssh://git@".data
        ++ (host.data ++ '/' :: (org.data ++ '/' :: (repo.data
            ++ '.' :: 'g' :: 'i' :: 't' :: refTailL (ref.map String.data)))) := by
  have h1 : "/".data = ['/'] := rfl
  have h2 : ".git".data = ['.', 'g', 'i', 't'] := rfl
  have h3 : "@".data = ['@'] := rfl
  cases ref with
  | none => simp [GitUrl.toUrl, refTailL, String.data_append, h1, h2]
  | some r =>
    simp [GitUrl.toUrl, refTailL, String.data_append, h1, h2, h3, hne r rfl]

theorem toUrl_data_https (host org repo : String) (ref : Option String)
    (hne : ∀ r, ref = some r → r ≠ "") :
    (GitUrl.toUrl ⟨host, org, repo, ref, .https⟩).data
      = "https://".data
        ++ (host.data ++ '/' :: (org.data ++ '/' :: (repo.data
            ++ '.' :: 'g' :: 'i' :: 't' :: refTailL (ref.map String.data)))) := by
  have h1 : "/".data = ['/'] := rfl
  have h2 : ".git".data = ['.', 'g', 'i', 't'] := rfl
  have h3 : "@".data = ['@'] := rfl
  cases ref with
  | none => simp [GitUrl.toUrl, refTailL, String.data_append, h1, h2]
  | some r =>
    simp [GitUrl.toUrl, refTailL, String.data_append, h1, h2, h3, hne r rfl]

/-- C1 counterexample: a GitUrl whose repo itself contains a path separator does
not survive the round trip — the parse of its to_url output reassigns all but
the last path segment to the org, so the reconstructed value differs. -/
theorem c1_roundtrip_counterexample :
    parseGitUrl (GitUrl.toUrl ⟨"h", "a", "b/c", none, .ssh⟩)
      = some ⟨"h", "a/b", "c", none, .ssh⟩
    ∧ (⟨"h", "a/b", "c", none, .ssh⟩ : GitUrl) ≠ ⟨"h", "a", "b/c", none, .ssh⟩ := by
  exact ⟨by decide, by decide⟩

/-- C1 (amended): parsing the string produced by to_url reconstructs the same
GitUrl for every GitUrl whose host is nonempty and free of slash and colon,
whose org is a nonempty slash-separated sequence of nonempty at-sign-free
segments, whose repo is a single nonempty segment free of slash and at-sign,
and whose ref, when present, is nonempty and free of slash and at-sign — for
both schemes.  (The unamended claim, which also allows multi-segment repos,
fails: see the counterexample.) -/
theorem c1_roundtrip_amended (u : GitUrl)
    (hhost : u.host.data ≠ []) (hhostc : ∀ c ∈ u.host.data, c ≠ '/' ∧ c ≠ ':')
    (horg : segsValid false u.org.data = true)
    (hrepo : u.repo.data ≠ []) (hrepoc : ∀ c ∈ u.repo.data, c ≠ '/' ∧ c ≠ '@')
    (href : ∀ r, u.ref = some r → r.data ≠ [] ∧ ∀ c ∈ r.data, c ≠ '/' ∧ c ≠ '@') :
    parseGitUrl u.toUrl = some u := by
  obtain ⟨host, org, repo, ref, scheme⟩ := u
  have hrefT : ∀ r, ref.map String.data = some r →
      r ≠ [] ∧ ∀ c ∈ r, c ≠ '/' ∧ c ≠ '@' := by
    intro r hr
    cases ref with
    | none => cases hr
    | some s =>
      have hr' : s.data = r := by simpa using hr
      subst hr'
      exact href s rfl
  have hne : ∀ r, ref = some r → r ≠ "" := by
    intro r hr h0
    exact (href r hr).1 (by rw [h0])
  cases scheme with
  | ssh =>
    unfold parseGitUrl
    rw [toUrl_data_ssh host org repo ref hne, parseSshL_append,
      parseHostTail_spec host.data org.data repo.data (ref.map String.data)
        hhost hhostc horg hrepo hrepoc hrefT]
    cases ref <;> rfl
  | https =>
    unfold parseGitUrl
    rw [toUrl_data_https host org repo ref hne, parseSshL_https_none,
      parseHttpsL_append,
      parseHostTail_spec host.data org.data repo.data (ref.map String.data)
        hhost hhostc horg hrepo hrepoc hrefT]
    cases ref <;> rfl

/-- Witness for c1_roundtrip_amended at a concrete GitUrl. -/
theorem c1_roundtrip_amended_witness :
    parseGitUrl (GitUrl.toUrl ⟨"github.com", "acme", "infra", some "main", .ssh⟩)
      = some ⟨"github.com", "acme", "infra", some "main", .ssh⟩ :=
  c1_roundtrip_amended ⟨"github.com", "acme", "infra", some "main", .ssh⟩
    (by decide) (by decide) (by decide) (by decide) (by decide)
    (by intro r hr; cases hr; exact ⟨by decide, by decide⟩)

/-! ## Provider detection — WorkflowSyncService._detect_provider -/

/-- VCSProvider from tracecat/workflow/store/sync.py. -/
inductive VCSProvider
  | github
  | gitlab
  deriving DecidableEq, Repr

/-- Python substring containment (the in operator) on char lists. -/
def isSubstrOfL (pat : List Char) : List Char → Bool
  | [] => pat.isEmpty
  | c :: rest => pat.isPrefixOf (c :: rest) || isSubstrOfL pat rest

/-- WorkflowSyncService._detect_provider: case-insensitive substring match on
the URL host; a host containing github maps to GitHub, then gitlab to GitLab,
and any other host defaults to GitLab (with a warning logged, which has no
semantic effect and is not modelled).  Python str.lower is modelled by
Char.toLower per character. -/
def detectProvider (url : GitUrl) : VCSProvider :=
  if isSubstrOfL "github".data (url.host.data.map Char.toLower) then .github
  else if isSubstrOfL "gitlab".data (url.host.data.map Char.toLower) then .gitlab
  else .gitlab

/-- C7: provider detection returns GitHub exactly when the lowercased host
contains the substring github; every other host — both those containing gitlab
and all remaining hosts, which default — maps to GitLab. -/
theorem c7_detect_provider (url : GitUrl) :
    detectProvider url
      = (if isSubstrOfL "github".data (url.host.data.map Char.toLower) = true
          then VCSProvider.github else VCSProvider.gitlab) := by
  unfold detectProvider
  by_cases h : isSubstrOfL "github".data (url.host.data.map Char.toLower) = true
  · simp [h]
  · simp only [Bool.not_eq_true] at h
    by_cases h2 : isSubstrOfL "gitlab".data (url.host.data.map Char.toLower) = true
    · simp [h, h2]
    · simp only [Bool.not_eq_true] at h2
      simp [h, h2]

/-! ## Pull pipeline — WorkflowSyncService.pull and _parse_workflow_definitions -/

/-- Parsed YAML values, as produced by the yaml.safe_load collaborator. -/
inductive Yaml
  | null
  | bool (b : Bool)
  | int (n : Int)
  | str (s : String)
  | arr (xs : List Yaml)
  | dict (kvs : List (String × Yaml))

/-- Python truthiness of a parsed YAML value (the `if not yaml_data` test). -/
def Yaml.truthy : Yaml → Bool
  | .null => false
  | .bool b => b
  | .int n => n != 0
  | .str s => s != ""
  | .arr xs => !xs.isEmpty
  | .dict kvs => !kvs.isEmpty

/-- Python dict lookup (dict.get with default None). -/
def lookupKey : List (String × Yaml) → String → Option Yaml
  | [], _ => none
  | (k, v) :: rest, key => if k = key then some v else lookupKey rest key

/-- Exceptions crossing the pull boundary, tagged with the dynamic class used
for except-clause dispatch in WorkflowSyncService.pull: GitHubAppError,
GitLabError, and every other Exception. -/
inductive PyExn
  | ghApp (msg : String)
  | glErr (msg : String)
  | other (msg : String)
  deriving DecidableEq, Repr

/-- Outcome of the yaml.safe_load oracle on one file's content: a value, a
yaml.YAMLError, or any other exception. -/
inductive LoadResult
  | ok (y : Yaml)
  | yamlError (msg : String)
  | exn (msg : String)

/-- RemoteWorkflowDefinition (tracecat/workflow/store/schemas.py is not under
src/): of its fields only the workflow id is consulted by the code under
verification, everything else is behind the validation oracle. -/
structure RemoteWorkflowDefinition where
  id : String
  deriving DecidableEq, Repr

/-- Outcome of the RemoteWorkflowDefinition.model_validate oracle: a parsed
definition, a pydantic ValidationError, or any other exception. -/
inductive ValidateResult
  | ok (d : RemoteWorkflowDefinition)
  | valError (msg : String)
  | exn (msg : String)

/-- PullDiagnostic (tracecat/sync.py is not under src/): the fields the claims
consult; workflow_title holds the raw looked-up YAML value and the structured
details payload is not modelled. -/
structure PullDiagnostic where
  workflow_path : String
  workflow_title : Option Yaml
  error_type : String
  message : String

/-- PullResult (tracecat/sync.py is not under src/), with the fields the code
constructs. -/
structure PullResult where
  success : Bool
  commit_sha : String
  workflows_found : Nat
  workflows_imported : Nat
  diagnostics : List PullDiagnostic
  message : String

/-- PullOptions (tracecat/sync.py is not under src/): commit_sha with Python
falsiness modelled by the empty string, and the dry_run flag; the
conflict-handling strategy is passed through opaquely and not modelled. -/
structure PullOptions where
  commit_sha : String
  dry_run : Bool

/-- The title extraction of the ValidationError handler in
_parse_workflow_definitions:
yaml_data.get(defkey, emptydict).get(titlekey) if isinstance(yaml_data, dict)
else None.  When the definition key holds a non-dict value, the second .get is
an attribute access on a non-dict and raises AttributeError. -/
def extractTitle : Yaml → Except PyExn (Option Yaml)
  | .dict kvs =>
    match lookupKey kvs "definition" with
    | none => .ok none
    | some (.dict kvs2) => .ok (lookupKey kvs2 "title")
    | some _ => .error (.other "AttributeError: object has no attribute get")
  | _ => .ok none

/-- One iteration of the _parse_workflow_definitions loop: yields either a
parsed definition or a diagnostic, or propagates an exception raised inside an
except handler. -/
def parseFile (load : String → LoadResult) (validate : Yaml → ValidateResult)
    (path content : String) :
    Except PyExn (Sum RemoteWorkflowDefinition PullDiagnostic) :=
  match load content with
  | .yamlError m =>
    .ok (.inr ⟨path, none, "parse", "YAML parsing error: " ++ m⟩)
  | .exn m =>
    .ok (.inr ⟨path, none, "parse", "Unexpected parsing error: " ++ m⟩)
  | .ok y =>
    if !y.truthy then
      .ok (.inr ⟨path, none, "parse", "Empty or invalid YAML file"⟩)
    else
      match validate y with
      | .ok d => .ok (.inl d)
      | .exn m =>
        .ok (.inr ⟨path, none, "parse", "Unexpected parsing error: " ++ m⟩)
      | .valError m =>
        match extractTitle y with
        | .error e => .error e
        | .ok t => .ok (.inr ⟨path, t, "validation", "Validation error: " ++ m⟩)

/-- WorkflowSyncService._parse_workflow_definitions: iterates the fetched
content map in order, collecting definitions and diagnostics; an exception
escaping an except handler aborts the whole loop. -/
def parseWorkflowDefinitions (load : String → LoadResult)
    (validate : Yaml → ValidateResult) :
    List (String × String) →
      Except PyExn (List RemoteWorkflowDefinition × List PullDiagnostic)
  | [] => .ok ([], [])
  | (path, content) :: rest =>
    match parseFile load validate path content with
    | .error e => .error e
    | .ok r =>
      match parseWorkflowDefinitions load validate rest with
      | .error e => .error e
      | .ok (ds, gs) =>
        match r with
        | .inl d => .ok (d :: ds, gs)
        | .inr g => .ok (ds, g :: gs)

/-- The try block of WorkflowSyncService.pull after the commit_sha guard:
fetch content, parse definitions, abort on diagnostics, honour dry_run,
otherwise delegate to the atomic import collaborator. -/
def pullBody (opts : PullOptions) (fetch : Except PyExn (List (String × String)))
    (load : String → LoadResult) (validate : Yaml → ValidateResult)
    (importF : List RemoteWorkflowDefinition → Except PyExn PullResult) :
    Except PyExn PullResult :=
  match fetch with
  | .error e => .error e
  | .ok content =>
    match parseWorkflowDefinitions load validate content with
    | .error e => .error e
    | .ok (defs, diags) =>
      if diags.isEmpty then
        if opts.dry_run then
          .ok ⟨true, opts.commit_sha, defs.length, 0, [],
            "Dry run completed - workflows validated but not imported"⟩
        else importF defs
      else
        .ok ⟨false, opts.commit_sha, content.length, 0, diags,
          "Failed to parse " ++ toString diags.length ++ " workflow definitions"⟩

/-- WorkflowSyncService.pull: the commit_sha guard, the try body, and the three
except clauses (GitHubAppError, GitLabError, Exception) converting errors into
failed single-diagnostic results.  Inside the handlers the source writes
options.commit_sha or the empty string; past the guard commit_sha is nonempty,
so it is written directly. -/
def pull (opts? : Option PullOptions) (fetch : Except PyExn (List (String × String)))
    (load : String → LoadResult) (validate : Yaml → ValidateResult)
    (importF : List RemoteWorkflowDefinition → Except PyExn PullResult) :
    PullResult :=
  match opts? with
  | none =>
    ⟨false, "", 0, 0,
      [⟨"", none, "validation", "commit_sha is required in pull options"⟩],
      "commit_sha is required"⟩
  | some opts =>
    if opts.commit_sha = "" then
      ⟨false, "", 0, 0,
        [⟨"", none, "validation", "commit_sha is required in pull options"⟩],
        "commit_sha is required"⟩
    else
      match pullBody opts fetch load validate importF with
      | .ok r => r
      | .error (.ghApp m) =>
        ⟨false, opts.commit_sha, 0, 0,
          [⟨"", none, "github", "GitHub API error: " ++ m⟩], "GitHub API error"⟩
      | .error (.glErr m) =>
        ⟨false, opts.commit_sha, 0, 0,
          [⟨"", none, "gitlab", "GitLab API error: " ++ m⟩], "GitLab API error"⟩
      | .error (.other m) =>
        ⟨false, opts.commit_sha, 0, 0,
          [⟨"", none, "system", "Unexpected error: " ++ m⟩], "System error"⟩

/-- C5: the claim that definition parsing never raises (one diagnostic per
failing file) is contradicted by the code: when a file fails schema validation
and its parsed YAML is a dict whose definition key holds a non-dict value, the
best-effort title extraction inside the ValidationError handler itself raises
AttributeError, which propagates out of _parse_workflow_definitions instead of
contributing a diagnostic.  This theorem evaluates the embedded code at such an
input: a single-file content map whose YAML loads to a dict mapping definition
to a list and whose schema validation fails. -/
theorem c5_parse_raises_on_nondict_definition :
    parseWorkflowDefinitions
      (fun _ => LoadResult.ok (Yaml.dict [("definition", Yaml.arr [Yaml.int 1])]))
      (fun _ => ValidateResult.valError "invalid definition")
      [("workflows/wf1/definition.yml", "definition: [1]")]
    = Except.error (PyExn.other "AttributeError: object has no attribute get") := rfl

theorem parseWD_count (load : String → LoadResult) (validate : Yaml → ValidateResult) :
    ∀ (content : List (String × String)) (defs : List RemoteWorkflowDefinition)
      (diags : List PullDiagnostic),
      parseWorkflowDefinitions load validate content = .ok (defs, diags) →
      defs.length + diags.length = content.length := by
  intro content
  induction content with
  | nil =>
    intro defs diags h
    simp only [parseWorkflowDefinitions, Except.ok.injEq, Prod.mk.injEq] at h
    obtain ⟨h1, h2⟩ := h
    subst h1; subst h2
    rfl
  | cons pc rest ih =>
    obtain ⟨p, c⟩ := pc
    intro defs diags h
    unfold parseWorkflowDefinitions at h
    cases hpf : parseFile load validate p c with
    | error e => rw [hpf] at h; cases h
    | ok r =>
      rw [hpf] at h
      cases hrec : parseWorkflowDefinitions load validate rest with
      | error e => rw [hrec] at h; cases h
      | ok pr =>
        rw [hrec] at h
        obtain ⟨ds, gs⟩ := pr
        have hih := ih ds gs hrec
        cases r with
        | inl d =>
          simp only [Except.ok.injEq, Prod.mk.injEq] at h
          obtain ⟨h1, h2⟩ := h
          subst h1; subst h2
          simp only [List.length_cons]
          omega
        | inr g =>
          simp only [Except.ok.injEq, Prod.mk.injEq] at h
          obtain ⟨h1, h2⟩ := h
          subst h1; subst h2
          simp only [List.length_cons]
          omega

/-- C9: pull with absent options or an empty (falsy) commit_sha returns the
fail-fast validation result — success false, zero workflows found and imported,
exactly one diagnostic of error_type validation — and its result does not
depend on any collaborator (no provider client is constructed, no network call
and no import happens). -/
theorem c9_pull_missing_sha (opts? : Option PullOptions)
    (fetch fetch' : Except PyExn (List (String × String)))
    (load load' : String → LoadResult) (validate validate' : Yaml → ValidateResult)
    (importF importF' : List RemoteWorkflowDefinition → Except PyExn PullResult)
    (h : opts? = none ∨ ∃ opts, opts? = some opts ∧ opts.commit_sha = "") :
    pull opts? fetch load validate importF
      = ⟨false, "", 0, 0,
          [⟨"", none, "validation", "commit_sha is required in pull options"⟩],
          "commit_sha is required"⟩
    ∧ pull opts? fetch load validate importF
      = pull opts? fetch' load' validate' importF' := by
  rcases h with rfl | ⟨opts, rfl, hsha⟩
  · exact ⟨rfl, rfl⟩
  · constructor <;> simp [pull, hsha]

/-- Witness for c9_pull_missing_sha: absent options, two unrelated collaborator
behaviours. -/
theorem c9_pull_missing_sha_witness :
    pull none (.error (.ghApp "boom")) (fun _ => .ok .null)
        (fun _ => .valError "x") (fun _ => .error (.other "down"))
      = ⟨false, "", 0, 0,
          [⟨"", none, "validation", "commit_sha is required in pull options"⟩],
          "commit_sha is required"⟩
    ∧ pull none (.error (.ghApp "boom")) (fun _ => .ok .null)
        (fun _ => .valError "x") (fun _ => .error (.other "down"))
      = pull none (.ok []) (fun _ => .ok (.str "a"))
          (fun _ => .ok ⟨"wf"⟩) (fun _ => .ok ⟨true, "sha", 1, 1, [], "ok"⟩) :=
  c9_pull_missing_sha none (.error (.ghApp "boom")) (.ok [])
    (fun _ => .ok .null) (fun _ => .ok (.str "a"))
    (fun _ => .valError "x") (fun _ => .ok ⟨"wf"⟩)
    (fun _ => .error (.other "down")) (fun _ => .ok ⟨true, "sha", 1, 1, [], "ok"⟩)
    (Or.inl rfl)

/-- C2 counterexample: with commit_sha present and a fetch of N = 2 definition
files that both fail schema validation (so K = 2), one of which has a parsed
YAML dict whose definition key holds a list, pull does not return K per-file
diagnostics: the ValidationError handler's title extraction raises (the same
slip as C5), _parse_workflow_definitions raises past its handlers, and pull's
except Exception clause converts that into a single system diagnostic with an
empty workflow path and workflows_found = 0 — one entry where the claim as
stated demands exactly two, refuting it on this input. -/
theorem c2_pull_counterexample :
    pull (some ⟨"abc123", false⟩)
      (.ok [("workflows/a/definition.yml", "schema-invalid"),
            ("workflows/b/definition.yml", "definition: [1]")])
      (fun c =>
        if c = "definition: [1]" then .ok (.dict [("definition", .arr [.int 1])])
        else .ok (.dict [("definition", .dict [("title", .str "T")])]))
      (fun _ => .valError "missing required fields")
      (fun _ => .error (.other "import must not run"))
    = ⟨false, "abc123", 0, 0,
        [⟨"", none, "system",
          "Unexpected error: AttributeError: object has no attribute get"⟩],
        "System error"⟩ := rfl

/-- C2 (amended): when the commit_sha guard passes, fetch succeeds with N
files, and definition parsing completes by returning its diagnostics list
diags with K = diags.length > 0 — the hypothesis the counterexample forces,
since a schema-failing file whose parsed YAML dict maps definition to a
non-dict value instead makes parsing raise and pull return a single system
diagnostic — pull aborts with success false, workflows_found N,
workflows_imported 0 and exactly the K parse diagnostics (one per failing
file: parsed definitions and diagnostics partition the N input files), and the
result is independent of the atomic import collaborator, which is never
invoked: no partial import of the N - K valid files occurs. -/
theorem c2_pull_aborts_on_diagnostics (opts : PullOptions)
    (content : List (String × String)) (load : String → LoadResult)
    (validate : Yaml → ValidateResult)
    (importF importF' : List RemoteWorkflowDefinition → Except PyExn PullResult)
    (defs : List RemoteWorkflowDefinition) (diags : List PullDiagnostic)
    (hsha : opts.commit_sha ≠ "")
    (hparse : parseWorkflowDefinitions load validate content = .ok (defs, diags))
    (hdiags : diags ≠ []) :
    pull (some opts) (.ok content) load validate importF
      = ⟨false, opts.commit_sha, content.length, 0, diags,
          "Failed to parse " ++ toString diags.length ++ " workflow definitions"⟩
    ∧ defs.length + diags.length = content.length
    ∧ pull (some opts) (.ok content) load validate importF
      = pull (some opts) (.ok content) load validate importF' := by
  have hempty : diags.isEmpty = false := by
    cases diags with
    | nil => exact absurd rfl hdiags
    | cons g gs => rfl
  have hres : ∀ imp : List RemoteWorkflowDefinition → Except PyExn PullResult,
      pull (some opts) (.ok content) load validate imp
        = ⟨false, opts.commit_sha, content.length, 0, diags,
            "Failed to parse " ++ toString diags.length ++ " workflow definitions"⟩ := by
    intro imp
    simp [pull, pullBody, hparse, hempty, hsha]
  exact ⟨hres importF, parseWD_count load validate content defs diags hparse,
    (hres importF).trans (hres importF').symm⟩

/-- Witness for c2_pull_aborts_on_diagnostics: two files, one parsing to a
valid definition and one loading as YAML null (falsy), which yields the
empty-or-invalid parse diagnostic. -/
theorem c2_pull_aborts_on_diagnostics_witness :
    pull (some ⟨"abc123", false⟩)
        (.ok [("workflows/a/definition.yml", "good"),
              ("workflows/b/definition.yml", "bad")])
        (fun c => if c = "bad" then .ok .null else .ok (.str "doc"))
        (fun _ => .ok ⟨"wf-1"⟩)
        (fun _ => .error (.other "import must not run"))
      = ⟨false, "abc123", 2, 0,
          [⟨"workflows/b/definition.yml", none, "parse", "Empty or invalid YAML file"⟩],
          "Failed to parse 1 workflow definitions"⟩
    ∧ (1 : Nat) + 1 = 2
    ∧ pull (some ⟨"abc123", false⟩)
        (.ok [("workflows/a/definition.yml", "good"),
              ("workflows/b/definition.yml", "bad")])
        (fun c => if c = "bad" then .ok .null else .ok (.str "doc"))
        (fun _ => .ok ⟨"wf-1"⟩)
        (fun _ => .error (.other "import must not run"))
      = pull (some ⟨"abc123", false⟩)
          (.ok [("workflows/a/definition.yml", "good"),
                ("workflows/b/definition.yml", "bad")])
          (fun c => if c = "bad" then .ok .null else .ok (.str "doc"))
          (fun _ => .ok ⟨"wf-1"⟩)
          (fun _ => .ok ⟨true, "abc123", 2, 2, [], "imported"⟩) :=
  c2_pull_aborts_on_diagnostics ⟨"abc123", false⟩
    [("workflows/a/definition.yml", "good"), ("workflows/b/definition.yml", "bad")]
    (fun c => if c = "bad" then .ok .null else .ok (.str "doc"))
    (fun _ => .ok ⟨"wf-1"⟩)
    (fun _ => .error (.other "import must not run"))
    (fun _ => .ok ⟨true, "abc123", 2, 2, [], "imported"⟩)
    [⟨"wf-1"⟩]
    [⟨"workflows/b/definition.yml", none, "parse", "Empty or invalid YAML file"⟩]
    (by decide) rfl (by intro h; cases h)

/-- C4: pull never raises — it is a total function of the collaborator
outcomes — and whenever the try body escapes with an exception, the result is a
failed PullResult with exactly one diagnostic whose error_type is github for a
GitHubAppError, gitlab for a GitLabError and system for any other exception,
with the corresponding messages. -/
theorem c4_pull_catches_all (opts : PullOptions)
    (fetch : Except PyExn (List (String × String)))
    (load : String → LoadResult) (validate : Yaml → ValidateResult)
    (importF : List RemoteWorkflowDefinition → Except PyExn PullResult)
    (e : PyExn)
    (hsha : opts.commit_sha ≠ "")
    (hbody : pullBody opts fetch load validate importF = .error e) :
    pull (some opts) fetch load validate importF
      = ⟨false, opts.commit_sha, 0, 0,
          [⟨"", none,
            (match e with
             | .ghApp _ => "github" | .glErr _ => "gitlab" | .other _ => "system"),
            (match e with
             | .ghApp m => "GitHub API error: " ++ m
             | .glErr m => "GitLab API error: " ++ m
             | .other m => "Unexpected error: " ++ m)⟩],
          (match e with
           | .ghApp _ => "GitHub API error"
           | .glErr _ => "GitLab API error"
           | .other _ => "System error")⟩ := by
  cases e with
  | ghApp m => simp [pull, hbody, hsha]
  | glErr m => simp [pull, hbody, hsha]
  | other m => simp [pull, hbody, hsha]

/-- Witness for c4_pull_catches_all: the fetch step raises a GitHubAppError. -/
theorem c4_pull_catches_all_witness :
    pull (some ⟨"abc123", false⟩) (.error (.ghApp "rate limited"))
        (fun _ => .ok .null) (fun _ => .valError "x")
        (fun _ => .ok ⟨true, "abc123", 0, 0, [], "ok"⟩)
      = ⟨false, "abc123", 0, 0,
          [⟨"", none, "github", "GitHub API error: rate limited"⟩],
          "GitHub API error"⟩ :=
  c4_pull_catches_all ⟨"abc123", false⟩ (.error (.ghApp "rate limited"))
    (fun _ => .ok .null) (fun _ => .valError "x")
    (fun _ => .ok ⟨true, "abc123", 0, 0, [], "ok"⟩)
    (.ghApp "rate limited") (by decide) rfl

/-! ## Push — WorkflowSyncService.push, _push_github, _push_gitlab -/

/-- PushOptions (tracecat/sync.py is not under src/): branch override, commit
message, create_pr flag. -/
structure PushOptions where
  branch : Option String
  message : String
  create_pr : Bool

/-- Python's `a or b` chain step for an optional string a: None and the empty
string are falsy. -/
def pyOrOpt (a : Option String) (b : String) : String :=
  match a with
  | none => b
  | some s => if s = "" then b else s

/-- PushObject (tracecat/sync.py is not under src/): a definition payload and
its repository-relative target path.  Only data.id and path_str steer the
embedded control flow; the serialized YAML payload and the PR body fields are
absorbed into the write/create oracles. -/
structure PushObj where
  data : RemoteWorkflowDefinition
  path_str : String

/-- CommitInfo (tracecat/sync.py is not under src/). -/
structure CommitInfo where
  sha : String
  ref : String
  deriving DecidableEq, Repr

/-- A GithubException outcome: HTTP status and message data. -/
structure GhApiErr where
  status : Nat
  msg : String
  deriving DecidableEq, Repr

/-- Result of repo.get_contents on the workflow file path: a file carrying its
blob sha, or a directory listing (for which the source raises a synthetic
404). -/
inductive ContentsKind
  | file (sha : String)
  | dir

/-- Repository metadata consulted by the GitHub push flow. -/
structure GhRepoInfo where
  defaultBranch : String

/-- Oracle outcomes for the GitHub call sites of _push_github, in source
order.  workspaceName none models WorkspaceService.get_workspace returning
None (the source then raises TracecatNotFoundError); the user lookup and the
workflow title/description resolution only affect PR text and are absorbed
into the createPr oracle. -/
structure GhEnv where
  repoInfo : Except GhApiErr GhRepoInfo
  baseBranchSha : Except GhApiErr String
  targetBranch : Except GhApiErr String
  createRef : Except GhApiErr Unit
  getContents : Except GhApiErr ContentsKind
  updateFile : Except GhApiErr Unit
  createFile : Except GhApiErr Unit
  finalBranchSha : Except GhApiErr String
  prList : Except GhApiErr (List String)
  workspaceName : Option String
  createPr : Except GhApiErr String

/-- Errors raised out of the provider adapters: GitHubAppError, GitLabError,
or a TracecatNotFoundError escaping the provider-specific except clauses. -/
inductive AdapterErr
  | ghApp (msg : String)
  | glErr (msg : String)
  | notFound (msg : String)
  deriving DecidableEq, Repr

/-- GitHubAppError message format of the outer except clause of _push_github. -/
def ghMsg (e : GhApiErr) : String :=
  "GitHub API error: " ++ toString e.status ++ " - " ++ e.msg

/-- WorkflowSyncService._push_github (the body after client creation), with
each provider call outcome drawn from the environment.  The file-write
try/except mirrors the source exactly: a GithubException from get_contents or
update_file is caught, a 404 (including the synthetic 404 raised when
get_contents returns a directory) leads to create_file, and any other status
is silently swallowed — that except block has no re-raise. -/
def pushGithub (env : GhEnv) (url : GitUrl) (opts : PushOptions) (obj : PushObj) :
    Except AdapterErr CommitInfo :=
  match env.repoInfo with
  | .error e => .error (.ghApp (ghMsg e))
  | .ok repo =>
    let _baseBranchName := pyOrOpt opts.branch (pyOrOpt url.ref repo.defaultBranch)
    match env.baseBranchSha with
    | .error e => .error (.ghApp (ghMsg e))
    | .ok _baseSha =>
      match
        (match env.targetBranch with
         | .ok _ => Except.ok ()
         | .error e => if e.status ≠ 404 then Except.error e else env.createRef) with
      | .error e => .error (.ghApp (ghMsg e))
      | .ok () =>
        match
          (match env.getContents with
           | .ok (.file _sha) =>
             (match env.updateFile with
              | .ok () => Except.ok ()
              | .error e => if e.status = 404 then env.createFile else Except.ok ())
           | .ok .dir => env.createFile
           | .error e => if e.status = 404 then env.createFile else Except.ok ()) with
        | .error e => .error (.ghApp (ghMsg e))
        | .ok () =>
          match env.finalBranchSha with
          | .error e => .error (.ghApp (ghMsg e))
          | .ok sha =>
            if opts.create_pr then
              match
                (match env.prList with
                 | .error _ => Except.ok ()
                 | .ok prs =>
                   if !prs.isEmpty then Except.ok ()
                   else
                     match env.workspaceName with
                     | none => Except.error (AdapterErr.notFound "Workspace not found")
                     | some _ =>
                       match env.createPr with
                       | .ok _ => Except.ok ()
                       | .error _ => Except.ok ()) with
              | .error e => .error e
              | .ok () => .ok ⟨sha, "tracecat-sync/" ++ obj.data.id⟩
            else .ok ⟨sha, "tracecat-sync/" ++ obj.data.id⟩

/-- Python substring containment on strings, as used by the source to classify
a GitlabError as 404 via "404" in str(e). -/
def isSubstrOfStr (pat s : String) : Bool := isSubstrOfL pat.data s.data

/-- Project metadata consulted by the GitLab push flow. -/
structure GlProjInfo where
  defaultBranch : String

/-- Oracle outcomes for the GitLab call sites of _push_gitlab, in source
order; a GitlabError is modelled by its string rendering, matching the
"404" in str(e) checks of the source. -/
structure GlEnv where
  project : Except String GlProjInfo
  targetBranch : Except String Unit
  createBranch : Except String Unit
  getFile : Except String Unit
  updateFile : Except String Unit
  createFile : Except String Unit
  finalBranchSha : Except String String
  mrList : Except String (List String)
  workspaceName : Option String
  createMr : Except String String

/-- WorkflowSyncService._push_gitlab, with each provider call outcome drawn
from the environment.  Unlike the GitHub twin, the file-write except block
re-raises non-404 errors. -/
def pushGitlab (env : GlEnv) (url : GitUrl) (opts : PushOptions) (obj : PushObj) :
    Except AdapterErr CommitInfo :=
  match env.project with
  | .error e => .error (.glErr ("GitLab API error: " ++ e))
  | .ok proj =>
    let _baseBranchName := pyOrOpt opts.branch (pyOrOpt url.ref proj.defaultBranch)
    match
      (match env.targetBranch with
       | .ok () => Except.ok ()
       | .error e =>
         if !(isSubstrOfStr "404" e) then Except.error e else env.createBranch) with
    | .error e => .error (.glErr ("GitLab API error: " ++ e))
    | .ok () =>
      match
        (match env.getFile with
         | .ok () =>
           (match env.updateFile with
            | .ok () => Except.ok ()
            | .error e =>
              if isSubstrOfStr "404" e then env.createFile else Except.error e)
         | .error e =>
           if isSubstrOfStr "404" e then env.createFile else Except.error e) with
      | .error e => .error (.glErr ("GitLab API error: " ++ e))
      | .ok () =>
        match env.finalBranchSha with
        | .error e => .error (.glErr ("GitLab API error: " ++ e))
        | .ok sha =>
          if opts.create_pr then
            match
              (match env.mrList with
               | .error _ => Except.ok ()
               | .ok mrs =>
                 if !mrs.isEmpty then Except.ok ()
                 else
                   match env.workspaceName with
                   | none => Except.error (AdapterErr.notFound "Workspace not found")
                   | some _ =>
                     match env.createMr with
                     | .ok _ => Except.ok ()
                     | .error _ => Except.ok ()) with
            | .error e => .error e
            | .ok () => .ok ⟨sha, "tracecat-sync/" ++ obj.data.id⟩
          else .ok ⟨sha, "tracecat-sync/" ++ obj.data.id⟩

/-- Errors raised out of WorkflowSyncService.push: the caller ValueError of the
arity guard, or an adapter error. -/
inductive PushExn
  | valueError
  | adapter (e : AdapterErr)
  deriving DecidableEq, Repr

/-- WorkflowSyncService.push: raises ValueError unless exactly one object is
given (the singleton match is the source guard len(objects) != 1 together with
the adapters' destructuring of the singleton sequence), then detects the
provider and dispatches. -/
def push (objs : List PushObj) (url : GitUrl) (opts : PushOptions)
    (ghEnv : GhEnv) (glEnv : GlEnv) : Except PushExn CommitInfo :=
  match objs with
  | [obj] =>
    (match detectProvider url with
     | .gitlab => pushGitlab glEnv url opts obj
     | .github => pushGithub ghEnv url opts obj).mapError .adapter
  | _ => .error .valueError

theorem mapError_adapter_ne_valueError (r : Except AdapterErr CommitInfo) :
    r.mapError PushExn.adapter ≠ Except.error PushExn.valueError := by
  cases r <;> simp [Except.mapError]

/-- C3: the claim that every provider error outside PR/MR creation propagates
is contradicted by the GitHub adapter: its file-write except block swallows
non-404 GithubExceptions (it lacks the re-raise its GitLab twin has), so a
push whose update_file call fails with status 409 still returns a CommitInfo
as if the write succeeded.  This theorem evaluates the embedded adapters at
that failing input: with identical oracle outcomes up to the failing non-404
file update, GitHub returns ok while GitLab raises. -/
theorem c3_push_github_swallows_file_errors :
    pushGithub
      ⟨.ok ⟨"main"⟩, .ok "basesha", .ok "tipsha", .ok (), .ok (.file "blobsha"),
        .error ⟨409, "conflict"⟩, .ok (), .ok "tipsha2", .ok [], some "ws", .ok "prurl"⟩
      ⟨"github.com", "acme", "infra", none, .ssh⟩
      ⟨none, "sync", false⟩ ⟨⟨"wf-1"⟩, "workflows/wf-1/definition.yml"⟩
      = Except.ok ⟨"tipsha2", "tracecat-sync/wf-1"⟩
    ∧ pushGitlab
      ⟨.ok ⟨"main"⟩, .ok (), .ok (), .ok (), .error "409 conflict", .ok (),
        .ok "tipsha2", .ok [], some "ws", .ok "mrurl"⟩
      ⟨"gitlab.com", "acme", "infra", none, .ssh⟩
      ⟨none, "sync", false⟩ ⟨⟨"wf-1"⟩, "workflows/wf-1/definition.yml"⟩
      = Except.error (.glErr "GitLab API error: 409 conflict") :=
  ⟨rfl, rfl⟩

/-- C10: push with a number of objects different from one — more than one, and
also the empty sequence — raises the caller ValueError, and does so before
provider detection, client construction or any provider call: the result does
not depend on either provider environment.  With exactly one object the arity
check passes: whatever the environments hold, push never yields the
ValueError. -/
theorem c10_push_arity (objs : List PushObj) (url : GitUrl) (opts : PushOptions)
    (ghEnv ghEnv' : GhEnv) (glEnv glEnv' : GlEnv)
    (h : objs.length ≠ 1) :
    push objs url opts ghEnv glEnv = .error .valueError
    ∧ push objs url opts ghEnv glEnv = push objs url opts ghEnv' glEnv'
    ∧ ∀ (o : PushObj) (ghE : GhEnv) (glE : GlEnv),
        push [o] url opts ghE glE ≠ .error .valueError := by
  have hcase : ∀ (e1 : GhEnv) (e2 : GlEnv),
      push objs url opts e1 e2 = .error .valueError := by
    intro e1 e2
    cases objs with
    | nil => rfl
    | cons a as =>
      cases as with
      | nil => exact absurd rfl h
      | cons b bs => rfl
  refine ⟨hcase ghEnv glEnv, (hcase ghEnv glEnv).trans (hcase ghEnv' glEnv').symm, ?_⟩
  intro o ghE glE
  exact mapError_adapter_ne_valueError _

/-- Witness for c10_push_arity: the empty object sequence with two unrelated
environments. -/
theorem c10_push_arity_witness :
    push [] ⟨"github.com", "acme", "infra", none, .ssh⟩ ⟨none, "m", false⟩
        ⟨.ok ⟨"main"⟩, .ok "s", .ok "t", .ok (), .ok (.file "f"), .ok (), .ok (),
          .ok "z", .ok [], some "ws", .ok "pr"⟩
        ⟨.ok ⟨"main"⟩, .ok (), .ok (), .ok (), .ok (), .ok (), .ok "z", .ok [],
          some "ws", .ok "mr"⟩
      = .error .valueError
    ∧ push [] ⟨"github.com", "acme", "infra", none, .ssh⟩ ⟨none, "m", false⟩
        ⟨.ok ⟨"main"⟩, .ok "s", .ok "t", .ok (), .ok (.file "f"), .ok (), .ok (),
          .ok "z", .ok [], some "ws", .ok "pr"⟩
        ⟨.ok ⟨"main"⟩, .ok (), .ok (), .ok (), .ok (), .ok (), .ok "z", .ok [],
          some "ws", .ok "mr"⟩
      = push [] ⟨"github.com", "acme", "infra", none, .ssh⟩ ⟨none, "m", false⟩
          ⟨.error ⟨500, "down"⟩, .ok "s", .ok "t", .ok (), .ok .dir, .ok (), .ok (),
            .ok "z", .ok [], none, .error ⟨500, "down"⟩⟩
          ⟨.error "down", .ok (), .ok (), .ok (), .ok (), .ok (), .ok "z", .ok [],
            none, .error "down"⟩
    ∧ ∀ (o : PushObj) (ghE : GhEnv) (glE : GlEnv),
        push [o] ⟨"github.com", "acme", "infra", none, .ssh⟩ ⟨none, "m", false⟩ ghE glE
          ≠ .error .valueError :=
  c10_push_arity [] ⟨"github.com", "acme", "infra", none, .ssh⟩ ⟨none, "m", false⟩
    ⟨.ok ⟨"main"⟩, .ok "s", .ok "t", .ok (), .ok (.file "f"), .ok (), .ok (),
      .ok "z", .ok [], some "ws", .ok "pr"⟩
    ⟨.error ⟨500, "down"⟩, .ok "s", .ok "t", .ok (), .ok .dir, .ok (), .ok (),
      .ok "z", .ok [], none, .error ⟨500, "down"⟩⟩
    ⟨.ok ⟨"main"⟩, .ok (), .ok (), .ok (), .ok (), .ok (), .ok "z", .ok [],
      some "ws", .ok "mr"⟩
    ⟨.error "down", .ok (), .ok (), .ok (), .ok (), .ok (), .ok "z", .ok [],
      none, .error "down"⟩
    (by decide)

/-! ## Commit listing — _list_commits_github and _list_commits_gitlab -/

/-- One raw commit record as delivered by a provider commit listing; author
name and email are optional upstream. -/
structure RawCommit where
  sha : String
  message : String
  authorName : Option String
  authorEmail : Option String
  date : String

/-- One raw tag record as delivered by a provider tag listing: the tag name
and the commit sha it records. -/
structure RawTag where
  name : String
  sha : String

/-- GitCommitInfo (tracecat/registry/repositories/schemas.py is not under
src/): the fields the code constructs. -/
structure GitCommitInfo where
  sha : String
  message : String
  author : String
  author_email : String
  date : String
  tags : List String
  deriving DecidableEq, Repr

/-- Python `x or d` for an optional string upstream field: None and the empty
string fall back to the default. -/
def pyOrStr (x : Option String) (d : String) : String :=
  match x with
  | none => d
  | some s => if s = "" then d else s

/-- One step of the sha-to-tags index construction: append the tag name to the
entry for its commit sha, creating the entry when absent (build_tag_mapping in
_list_commits_github and the identical loop in _list_commits_gitlab). -/
def insertTag (m : List (String × List String)) (sha tagName : String) :
    List (String × List String) :=
  match m with
  | [] => [(sha, [tagName])]
  | (k, v) :: rest =>
    if k = sha then (k, v ++ [tagName]) :: rest
    else (k, v) :: insertTag rest sha tagName

/-- The sha-to-tags index built from the provider tag list. -/
def buildTagMap (tags : List RawTag) : List (String × List String) :=
  tags.foldl (fun m t => insertTag m t.sha t.name) []

/-- Python dict .get(sha, empty list) on the index. -/
def getTags (m : List (String × List String)) (sha : String) : List String :=
  match m with
  | [] => []
  | (k, v) :: rest => if k = sha then v else getTags rest sha

/-- The conversion loop of _list_commits_github: breaks once count reaches
limit, otherwise converts the commit and annotates it from the index. -/
def ghCommitLoop (m : List (String × List String)) (limit : Nat) :
    List RawCommit → Nat → List GitCommitInfo
  | [], _ => []
  | c :: rest, count =>
    if count ≥ limit then []
    else
      ⟨c.sha, c.message, pyOrStr c.authorName "Unknown", pyOrStr c.authorEmail "",
        c.date, getTags m c.sha⟩ :: ghCommitLoop m limit rest (count + 1)

/-- WorkflowSyncService._list_commits_github given the paginated commit
sequence delivered by the provider (newest first per the GitHub API contract)
and the repository tag list. -/
def listCommitsGithub (rawCommits : List RawCommit) (rawTags : List RawTag)
    (limit : Nat) : List GitCommitInfo :=
  ghCommitLoop (buildTagMap rawTags) limit rawCommits 0

/-- WorkflowSyncService._list_commits_gitlab given the provider page (the
source requests per_page = limit and converts every returned commit) and the
repository tag list. -/
def listCommitsGitlab (rawCommits : List RawCommit) (rawTags : List RawTag) :
    List GitCommitInfo :=
  rawCommits.map (fun c =>
    ⟨c.sha, c.message, pyOrStr c.authorName "Unknown", pyOrStr c.authorEmail "",
      c.date, getTags (buildTagMap rawTags) c.sha⟩)

theorem getTags_insertTag (sha tagName s : String) :
    ∀ m : List (String × List String),
      getTags (insertTag m sha tagName) s
        = if sha = s then getTags m s ++ [tagName] else getTags m s := by
  intro m
  induction m with
  | nil =>
    by_cases h : sha = s
    · simp [insertTag, getTags, h]
    · simp [insertTag, getTags, h]
  | cons kv rest ih =>
    obtain ⟨k, v⟩ := kv
    by_cases hk : k = sha
    · subst hk
      by_cases hs : k = s
      · simp [insertTag, getTags, hs]
      · simp [insertTag, getTags, hs]
    · by_cases hs : k = s
      · have hss : sha ≠ s := fun h2 => hk (by rw [hs, h2])
        simp [insertTag, getTags, hk, hs, hss, Ne.symm hss]
      · simp [insertTag, getTags, hk, hs, ih]

theorem getTags_foldl (s : String) :
    ∀ (tags : List RawTag) (m : List (String × List String)),
      getTags (tags.foldl (fun acc t => insertTag acc t.sha t.name) m) s
        = getTags m s ++ (tags.filter (fun t => t.sha = s)).map RawTag.name := by
  intro tags
  induction tags with
  | nil => intro m; simp
  | cons t ts ih =>
    intro m
    simp only [List.foldl_cons]
    rw [ih]
    by_cases h : t.sha = s
    · simp [List.filter_cons, h, getTags_insertTag, List.append_assoc]
    · simp [List.filter_cons, h, getTags_insertTag]

theorem getTags_buildTagMap (tags : List RawTag) (s : String) :
    getTags (buildTagMap tags) s
      = (tags.filter (fun t => t.sha = s)).map RawTag.name := by
  unfold buildTagMap
  rw [getTags_foldl]
  simp [getTags]

theorem ghCommitLoop_eq (m : List (String × List String)) (limit : Nat) :
    ∀ (cs : List RawCommit) (count : Nat),
      ghCommitLoop m limit cs count
        = (cs.take (limit - count)).map (fun c =>
            ⟨c.sha, c.message, pyOrStr c.authorName "Unknown",
              pyOrStr c.authorEmail "", c.date, getTags m c.sha⟩) := by
  intro cs
  induction cs with
  | nil => intro count; simp [ghCommitLoop]
  | cons c rest ih =>
    intro count
    unfold ghCommitLoop
    by_cases h : count ≥ limit
    · have h0 : limit - count = 0 := by omega
      simp [h, h0]
    · have h1 : limit - count = (limit - (count + 1)) + 1 := by omega
      rw [if_neg h, h1]
      simp [List.take_succ_cons, ih]

/-- C6: both commit listings return at most limit entries (GitHub by the
counting loop; GitLab by converting a provider page requested with per_page =
limit, whose size bound is the hypothesis), preserve the provider's
newest-first order (each result is the order-preserving image of a prefix of
the provider sequence), annotate every commit with exactly the tag names whose
recorded commit sha equals that commit's sha — in tag-list order, empty when
no tag points at it — and fall back to Unknown and the empty string for
author name and email absent upstream. -/
theorem c6_list_commits (rawGh : List RawCommit) (tagsGh : List RawTag)
    (rawGl : List RawCommit) (tagsGl : List RawTag) (limit : Nat)
    (hgl : rawGl.length ≤ limit) :
    (listCommitsGithub rawGh tagsGh limit).length ≤ limit
    ∧ listCommitsGithub rawGh tagsGh limit
      = (rawGh.take limit).map (fun c =>
          ⟨c.sha, c.message, pyOrStr c.authorName "Unknown",
            pyOrStr c.authorEmail "", c.date,
            (tagsGh.filter (fun t => t.sha = c.sha)).map RawTag.name⟩)
    ∧ (listCommitsGitlab rawGl tagsGl).length ≤ limit
    ∧ listCommitsGitlab rawGl tagsGl
      = rawGl.map (fun c =>
          ⟨c.sha, c.message, pyOrStr c.authorName "Unknown",
            pyOrStr c.authorEmail "", c.date,
            (tagsGl.filter (fun t => t.sha = c.sha)).map RawTag.name⟩) := by
  have hgh : listCommitsGithub rawGh tagsGh limit
      = (rawGh.take limit).map (fun c =>
          ⟨c.sha, c.message, pyOrStr c.authorName "Unknown",
            pyOrStr c.authorEmail "", c.date,
            (tagsGh.filter (fun t => t.sha = c.sha)).map RawTag.name⟩) := by
    unfold listCommitsGithub
    rw [ghCommitLoop_eq]
    simp [getTags_buildTagMap]
  have hglEq : listCommitsGitlab rawGl tagsGl
      = rawGl.map (fun c =>
          ⟨c.sha, c.message, pyOrStr c.authorName "Unknown",
            pyOrStr c.authorEmail "", c.date,
            (tagsGl.filter (fun t => t.sha = c.sha)).map RawTag.name⟩) := by
    unfold listCommitsGitlab
    simp [getTags_buildTagMap]
  refine ⟨?_, hgh, ?_, hglEq⟩
  · rw [hgh]
    simp only [List.length_map, List.length_take]
    omega
  · rw [hglEq]
    simpa using hgl

/-- Witness for c6_list_commits: one commit on each provider, a matching and a
non-matching tag, an absent author name. -/
theorem c6_list_commits_witness :
    (listCommitsGithub [⟨"s1", "m1", none, some "a@b", "2024-01-01"⟩]
        [⟨"v1", "s1"⟩, ⟨"v2", "other"⟩] 5).length ≤ 5
    ∧ listCommitsGithub [⟨"s1", "m1", none, some "a@b", "2024-01-01"⟩]
        [⟨"v1", "s1"⟩, ⟨"v2", "other"⟩] 5
      = ([⟨"s1", "m1", none, some "a@b", "2024-01-01"⟩].take 5).map
          (fun c : RawCommit =>
            ⟨c.sha, c.message, pyOrStr c.authorName "Unknown",
              pyOrStr c.authorEmail "", c.date,
              (([⟨"v1", "s1"⟩, ⟨"v2", "other"⟩] : List RawTag).filter
                (fun t => t.sha = c.sha)).map RawTag.name⟩)
    ∧ (listCommitsGitlab [⟨"s2", "m2", some "", none, "2024-01-02"⟩]
        [⟨"v3", "s2"⟩]).length ≤ 5
    ∧ listCommitsGitlab [⟨"s2", "m2", some "", none, "2024-01-02"⟩]
        [⟨"v3", "s2"⟩]
      = [⟨"s2", "m2", some "", none, "2024-01-02"⟩].map
          (fun c : RawCommit =>
            ⟨c.sha, c.message, pyOrStr c.authorName "Unknown",
              pyOrStr c.authorEmail "", c.date,
              (([⟨"v3", "s2"⟩] : List RawTag).filter
                (fun t => t.sha = c.sha)).map RawTag.name⟩) :=
  c6_list_commits [⟨"s1", "m1", none, some "a@b", "2024-01-01"⟩]
    [⟨"v1", "s1"⟩, ⟨"v2", "other"⟩]
    [⟨"s2", "m2", some "", none, "2024-01-02"⟩] [⟨"v3", "s2"⟩] 5 (by decide)

/-! ## GitLab credential status — tracecat/vcs/gitlab/service.py -/

/-- Exceptions around the secrets vault: a GitLabError, or any other exception
(for instance the TracecatNotFoundError of a missing organization secret, or a
database error). -/
inductive TcExn
  | gitlab (msg : String)
  | other (msg : String)
  deriving DecidableEq, Repr

/-- The str(e) rendering used when wrapping an exception. -/
def TcExn.msg : TcExn → String
  | .gitlab m => m
  | .other m => m

/-- The organization secret record: the encrypted keys are behind the decrypt
oracle; created_at is the optional ISO-rendered creation timestamp (none
models a missing timestamp, the Python truthiness test). -/
structure SecretRec where
  created_at : Option String

/-- GitLabCredentials from tracecat/vcs/gitlab/schemas.py. -/
structure GitLabCredentials where
  access_token : String
  gitlab_url : String
  deriving DecidableEq, Repr

/-- GitLabService.get_gitlab_credentials: secret retrieval, key decryption and
schema validation, with every exception wrapped into a GitLabError carrying
the failure message. -/
def getGitlabCredentials (getSecret : Except TcExn SecretRec)
    (decrypt : SecretRec → Except TcExn (List (String × String)))
    (validate : List (String × String) → Except TcExn GitLabCredentials) :
    Except TcExn GitLabCredentials :=
  match
    (match getSecret with
     | .error e => Except.error e
     | .ok s =>
       match decrypt s with
       | .error e => Except.error e
       | .ok ks => validate ks) with
  | .ok c => .ok c
  | .error e =>
    .error (.gitlab ("Failed to retrieve GitLab credentials: " ++ e.msg))

/-- The result dictionary of get_gitlab_credentials_status. -/
structure CredStatus where
  credsExist : Bool
  gitlab_url : Option String
  created_at : Option String
  deriving DecidableEq, Repr

/-- GitLabService.get_gitlab_credentials_status: the try body retrieves the
credentials and then looks the secret up a second time for its creation
timestamp; only a GitLabError is converted into the exists-false dictionary —
any other exception escapes the handler. -/
def getGitlabCredentialsStatus (getSecret1 : Except TcExn SecretRec)
    (decrypt : SecretRec → Except TcExn (List (String × String)))
    (validate : List (String × String) → Except TcExn GitLabCredentials)
    (getSecret2 : Except TcExn SecretRec) :
    Except TcExn CredStatus :=
  match
    (match getGitlabCredentials getSecret1 decrypt validate with
     | .error e => Except.error e
     | .ok creds =>
       match getSecret2 with
       | .error e => Except.error e
       | .ok secret =>
         Except.ok (⟨true, some creds.gitlab_url, secret.created_at⟩ : CredStatus)) with
  | .ok st => .ok st
  | .error (.gitlab _) => .ok ⟨false, none, none⟩
  | .error e => .error e

theorem getGitlabCredentials_error_tag (getSecret : Except TcExn SecretRec)
    (decrypt : SecretRec → Except TcExn (List (String × String)))
    (validate : List (String × String) → Except TcExn GitLabCredentials)
    (e : TcExn) (h : getGitlabCredentials getSecret decrypt validate = .error e) :
    ∃ m, e = .gitlab m := by
  unfold getGitlabCredentials at h
  cases hinner :
      (match getSecret with
       | .error e => Except.error e
       | .ok s =>
         match decrypt s with
         | .error e => Except.error e
         | .ok ks => validate ks) with
  | ok c => rw [hinner] at h; cases h
  | error e2 =>
    rw [hinner] at h
    exact ⟨"Failed to retrieve GitLab credentials: " ++ e2.msg,
      (Except.error.inj h).symm⟩

/-- C8 counterexample: the status operation can fail.  When credential
retrieval succeeds but the second secret lookup (for the creation timestamp)
raises a non-GitLabError exception — such as the TracecatNotFoundError of a
secret deleted between the two lookups, or a database error — the except
GitLabError clause does not catch it and get_gitlab_credentials_status raises
instead of returning a dictionary. -/
theorem c8_status_counterexample :
    getGitlabCredentialsStatus
      (.ok ⟨some "2024-01-01T00:00:00"⟩)
      (fun _ => .ok [("access_token", "tok"), ("gitlab_url", "https://gitlab.example")])
      (fun _ => .ok ⟨"tok", "https://gitlab.example"⟩)
      (.error (.other "TracecatNotFoundError: secret not found"))
    = Except.error (.other "TracecatNotFoundError: secret not found") := rfl

/-- C8 (amended): for every behaviour of the secret store, decryption and
schema validation collaborators, the status operation returns the exists-false
dictionary whenever credential retrieval fails (get_gitlab_credentials wraps
every underlying failure into a GitLabError, which the status handler
catches), and the exists-true dictionary with the stored base URL and creation
timestamp when retrieval succeeds — provided the second secret-metadata lookup
does not itself raise a non-GitLabError exception (the counterexample shows
the operation raises in that remaining case). -/
theorem c8_status_amended (getSecret1 : Except TcExn SecretRec)
    (decrypt : SecretRec → Except TcExn (List (String × String)))
    (validate : List (String × String) → Except TcExn GitLabCredentials)
    (s : SecretRec) :
    getGitlabCredentialsStatus getSecret1 decrypt validate (.ok s)
      = (match getGitlabCredentials getSecret1 decrypt validate with
         | .error _ => .ok ⟨false, none, none⟩
         | .ok creds => .ok ⟨true, some creds.gitlab_url, s.created_at⟩) := by
  unfold getGitlabCredentialsStatus
  cases hc : getGitlabCredentials getSecret1 decrypt validate with
  | ok c => rfl
  | error e =>
    obtain ⟨m, rfl⟩ :=
      getGitlabCredentials_error_tag getSecret1 decrypt validate e hc
    rfl
